import Mathlib

/-!
Verification development for the tw2002-client repository (twparser.py and
portPairs.py).  The Python source is shallowly embedded: lines are `List Char`,
the SQLite tables become fields of a `Store` structure, the regular expressions
of the parser are embedded as terms of a small regex AST `RE` evaluated by a
backtracking matcher `reF` that mirrors the preference order of Python's `re`
module (`re.match`: anchored prefix match, greedy/lazy repetition, ordered
alternation, last-write-wins group capture).
-/

namespace TW

/-- Python's `\s` on ASCII text: space, tab, newline, carriage return,
vertical tab, form feed. -/
def isPySpace (c : Char) : Bool :=
  c = ' ' || c = '\t' || c = '\n' || c = '\r' || c = '\x0b' || c = '\x0c'

/-- Captured groups: association list from group number to captured text;
the most recent capture for a number is listed first. -/
abbrev Caps := List (Nat × List Char)

/-- Regex AST: the fragment of Python `re` used by twparser.py.
`chr p` is a single-character class, `alt` tries the left branch first,
`star` is greedy `*`, `lstar` is lazy `*?`, `grp` is a numbered capture
group, `eos` is `$`. -/
inductive RE where
  | eps : RE
  | chrC : (Char → Bool) → RE
  | seq : RE → RE → RE
  | alt : RE → RE → RE
  | star : RE → RE
  | lstar : RE → RE
  | grp : Nat → RE → RE
  | eos : RE

/-- Node count of a regex, used to bound the matcher's recursion depth. -/
def sizeRE : RE → Nat
  | .eps => 1
  | .chrC _ => 1
  | .seq a b => 1 + sizeRE a + sizeRE b
  | .alt a b => 1 + sizeRE a + sizeRE b
  | .star r => 2 + sizeRE r
  | .lstar r => 2 + sizeRE r
  | .grp _ r => 1 + sizeRE r
  | .eos => 1

/-- Backtracking matcher.  `reF fuel r s` returns all ways `r` can match a
prefix of `s`, as `(remaining suffix, captures)` pairs, ordered by Python's
backtracking preference (first element = the match `re` would report).
Repetition only iterates while the body consumes input, which agrees with
Python for every pattern in the source (each starred body consumes exactly
one character).  `fuel` bounds recursion depth; `pyMatch` supplies enough
fuel for any outcome to be reachable for the source's patterns. -/
def reF : Nat → RE → List Char → List (List Char × Caps)
  | 0, _, _ => []
  | Nat.succ f, r, s =>
    match r with
    | .eps => [(s, [])]
    | .chrC p =>
      match s with
      | [] => []
      | a :: rest => if p a then [(rest, [])] else []
    | .seq r1 r2 =>
      (reF f r1 s).flatMap fun x =>
        (reF f r2 x.1).map fun y => (y.1, y.2 ++ x.2)
    | .alt r1 r2 => reF f r1 s ++ reF f r2 s
    | .star r1 =>
      ((reF f r1 s).flatMap fun x =>
        if x.1.length < s.length then
          (reF f (.star r1) x.1).map fun y => (y.1, y.2 ++ x.2)
        else []) ++ [(s, [])]
    | .lstar r1 =>
      (s, []) :: ((reF f r1 s).flatMap fun x =>
        if x.1.length < s.length then
          (reF f (.lstar r1) x.1).map fun y => (y.1, y.2 ++ x.2)
        else [])
    | .grp n r1 =>
      (reF f r1 s).map fun x => (x.1, (n, s.take (s.length - x.1.length)) :: x.2)
    | .eos => if s.isEmpty then [(s, [])] else []

/-- Fuel that bounds the matcher's recursion depth for the source's patterns
(star bodies consume one character per iteration). -/
def reFuel (r : RE) (s : List Char) : Nat :=
  (sizeRE r + 2) * (s.length + 3)

/-- `re.match(pattern, s)`: anchored prefix match; `some caps` on success. -/
def pyMatch (r : RE) (s : List Char) : Option Caps :=
  match reF (reFuel r s) r s with
  | [] => none
  | x :: _ => some x.2

/-- Suffix left over after `re.match`'s preferred match (used by `re.sub`). -/
def pyMatchRem (r : RE) (s : List Char) : Option (List Char) :=
  match reF (reFuel r s) r s with
  | [] => none
  | x :: _ => some x.1

/-- Group lookup on a match result (empty for an absent group). -/
def grpGet (c : Caps) (n : Nat) : List Char :=
  match c.find? fun p => p.1 = n with
  | some p => p.2
  | none => []

/-- A literal string, as a sequence of single-character regexes. -/
def litRE (s : List Char) : RE :=
  s.foldr (fun c r => .seq (.chrC fun x => x = c) r) .eps

/-- `r+` = `r r*` (greedy). -/
def plusRE (r : RE) : RE := .seq r (.star r)

/-- `r?` (greedy: presence preferred). -/
def optRE (r : RE) : RE := .alt r .eps

/-- `r{n}`: n-fold repetition. -/
def repsRE : Nat → RE → RE
  | 0, _ => .eps
  | Nat.succ n, r => .seq r (repsRE n r)

/-- Character classes used by the source's patterns. -/
def digitC : RE := .chrC Char.isDigit

/-- `[ 0-9]` (also written `[0-9 ]` in the source). -/
def digitSpC : RE := .chrC fun c => c = ' ' || c.isDigit

/-- `\s`. -/
def spC : RE := .chrC isPySpace

/-- `.` (any character except newline). -/
def dotC : RE := .chrC fun c => !(c = '\n')

/-- `[0-9 ()>]`: the characters allowed in a route list. -/
def routeC : RE := .chrC fun c => c.isDigit || c = ' ' || c = '(' || c = ')' || c = '>'

/-- `[ -]`: the buy/sell column of the CIM port report. -/
def bsC : RE := .chrC fun c => c = ' ' || c = '-'

/-- `[A-Z]`. -/
def upperC : RE := .chrC fun c => 'A' ≤ c && c ≤ 'Z'

/-- `[ 0-9]{3}[0-9]`: a four-character space-padded sector number. -/
def sector4RE : RE := .seq (repsRE 3 digitSpC) digitC

/-- `[0-9 ]{4}[0-9]`: a five-character space-padded sector number. -/
def sector5RE : RE := .seq (repsRE 4 digitSpC) digitC

/-- twparser.py line 43: `^\s*Deployed  Fighter  Scan`. -/
def clearFightersRE : RE :=
  .seq (.star spC) (litRE "Deployed  Fighter  Scan".toList)

/-- twparser.py line 44:
`^ (?P<sector>[0-9 ]{4}[0-9])\s+[0-9]+\s+(?:Personal|Corp)\s+(?:Defensive|Offensive|Toll)`.
Group 1 = sector. -/
def saveFightersRE : RE :=
  .seq (.chrC fun c => c = ' ') <|
  .seq (.grp 1 sector5RE) <|
  .seq (plusRE spC) <|
  .seq (plusRE digitC) <|
  .seq (plusRE spC) <|
  .seq (.alt (litRE "Personal".toList) (litRE "Corp".toList)) <|
  .seq (plusRE spC) <|
  .alt (litRE "Defensive".toList) (.alt (litRE "Offensive".toList) (litRE "Toll".toList))

/-- twparser.py line 33: `^(?P<sector>[ 0-9]{3}[0-9])(?P<warps>(?: [ 0-9]{3}[0-9])+)$`.
Group 1 = sector, group 2 = warps. -/
def warpListRE : RE :=
  .seq (.grp 1 sector4RE) <|
  .seq (.grp 2 (plusRE (.seq (.chrC fun c => c = ' ') sector4RE))) <|
  .eos

/-- `[ 0-9]{2}[0-9]`: a three-character space-padded percentage. -/
def pct3RE : RE := .seq (repsRE 2 digitSpC) digitC

/-- twparser.py line 30, the CIM port report:
`^(?P<sector>[ 0-9]{3}[0-9]) (?P<ore_bs>[ -]) (?P<ore_amt>[ 0-9]{3}[0-9]) (?P<ore_pct>[ 0-9]{2}[0-9])% (?P<org_bs>[ -]) (?P<org_amt>[ 0-9]{3}[0-9]) (?P<org_pct>[ 0-9]{2}[0-9])% (?P<equ_bs>[ -]) (?P<equ_amt>[ 0-9]{3}[0-9]) (?P<equ_pct>[ 0-9]{2}[0-9])%$`.
Groups 1..10 in pattern order. -/
def portListRE : RE :=
  .seq (.grp 1 sector4RE) <|
  .seq (.chrC fun c => c = ' ') <|
  .seq (.grp 2 bsC) <|
  .seq (.chrC fun c => c = ' ') <|
  .seq (.grp 3 sector4RE) <|
  .seq (.chrC fun c => c = ' ') <|
  .seq (.grp 4 pct3RE) <|
  .seq (litRE "% ".toList) <|
  .seq (.grp 5 bsC) <|
  .seq (.chrC fun c => c = ' ') <|
  .seq (.grp 6 sector4RE) <|
  .seq (.chrC fun c => c = ' ') <|
  .seq (.grp 7 pct3RE) <|
  .seq (litRE "% ".toList) <|
  .seq (.grp 8 bsC) <|
  .seq (.chrC fun c => c = ' ') <|
  .seq (.grp 9 sector4RE) <|
  .seq (.chrC fun c => c = ' ') <|
  .seq (.grp 10 pct3RE) <|
  .seq (.chrC fun c => c = '%') <|
  .eos

/-- twparser.py line 47:
`^\s*(?P<sector>[0-9 ]{4}[0-9])\s+T?\s+#(?P<id>[0-9]+)\s+(?P<name>.*?)\s+Class (?P<class>[A-Z]), .*(?P<citadel>No Citadel|Level [0-9])`.
Groups: 1 sector, 2 id, 3 name, 4 class, 5 citadel. -/
def planetListRE : RE :=
  .seq (.star spC) <|
  .seq (.grp 1 sector5RE) <|
  .seq (plusRE spC) <|
  .seq (optRE (.chrC fun c => c = 'T')) <|
  .seq (plusRE spC) <|
  .seq (.chrC fun c => c = '#') <|
  .seq (.grp 2 (plusRE digitC)) <|
  .seq (plusRE spC) <|
  .seq (.grp 3 (.lstar dotC)) <|
  .seq (plusRE spC) <|
  .seq (litRE "Class ".toList) <|
  .seq (.grp 4 upperC) <|
  .seq (litRE ", ".toList) <|
  .seq (.star dotC) <|
  .grp 5 (.alt (litRE "No Citadel".toList) (.seq (litRE "Level ".toList) digitC))

/-- twparser.py line 36: `^FM > [0-9]+$`. -/
def routeListFromCIMRE : RE :=
  .seq (litRE "FM > ".toList) (.seq (plusRE digitC) .eos)

/-- twparser.py line 37:
`^The shortest path .* from sector [0-9]+ to sector [0-9]+ is:$`. -/
def routeListFromCFRE : RE :=
  .seq (litRE "The shortest path ".toList) <|
  .seq (.star dotC) <|
  .seq (litRE " from sector ".toList) <|
  .seq (plusRE digitC) <|
  .seq (litRE " to sector ".toList) <|
  .seq (plusRE digitC) <|
  .seq (litRE " is:".toList) <|
  .eos

/-- twparser.py line 38: `^(?:  TO)?[0-9 ()>]+$`. -/
def routeListRestRE : RE :=
  .seq (optRE (litRE "  TO".toList)) (.seq (plusRE routeC) .eos)

/-- twparser.py line 39: `^FM > [0-9]+   TO > [0-9]+ (?P<route>[0-9 ()>]+)$`.
Group 1 = route. -/
def routeListCompleteCIMRE : RE :=
  .seq (litRE "FM > ".toList) <|
  .seq (plusRE digitC) <|
  .seq (litRE "   TO > ".toList) <|
  .seq (plusRE digitC) <|
  .seq (.chrC fun c => c = ' ') <|
  .seq (.grp 1 (plusRE routeC)) <|
  .eos

/-- twparser.py line 40:
`^The shortest path .* from sector [0-9]+ to sector [0-9]+ is: (?P<route>[0-9 ()>]+)$`.
Group 1 = route. -/
def routeListCompleteCFRE : RE :=
  .seq (litRE "The shortest path ".toList) <|
  .seq (.star dotC) <|
  .seq (litRE " from sector ".toList) <|
  .seq (plusRE digitC) <|
  .seq (litRE " to sector ".toList) <|
  .seq (plusRE digitC) <|
  .seq (litRE " is: ".toList) <|
  .seq (.grp 1 (plusRE routeC)) <|
  .eos

/-! ### Python string helpers -/

/-- `str.strip()`: remove leading and trailing whitespace. -/
def pyStrip (s : List Char) : List Char :=
  ((s.dropWhile isPySpace).reverse.dropWhile isPySpace).reverse

/-- `str.rstrip()`: remove trailing whitespace. -/
def pyRstrip (s : List Char) : List Char :=
  (s.reverse.dropWhile isPySpace).reverse

/-- Numeric value of a digit string. -/
def digitsVal (s : List Char) : Nat :=
  s.foldl (fun a c => a * 10 + (c.toNat - 48)) 0

/-- `int(s.strip())` for the parser's captured groups (digits padded with
spaces): `some` value when the stripped text is a nonempty digit run,
`none` when `int` would raise `ValueError` (e.g. an interior space). -/
def pyIntStrip : List Char → Option Nat := fun s =>
  let t := pyStrip s
  if t ≠ [] ∧ t.all Char.isDigit then some (digitsVal t) else none

/-- `re.findall('[0-9]+', s)` mapped through `int`: the values of the
maximal digit runs of `s`, left to right.  `acc` carries the value of the
run currently being read. -/
def findallNumsAux : List Char → Option Nat → List Nat
  | [], none => []
  | [], some v => [v]
  | c :: rest, acc =>
    if c.isDigit then
      findallNumsAux rest (some ((acc.getD 0) * 10 + (c.toNat - 48)))
    else
      match acc with
      | some v => v :: findallNumsAux rest none
      | none => findallNumsAux rest none

/-- All numbers embedded in a string (twparser.py lines 96 and 162). -/
def findallNums (s : List Char) : List Nat := findallNumsAux s none

/-- `str.replace(a, b)` for single-character `a`, `b`. -/
def pyReplaceChar (a b : Char) (s : List Char) : List Char :=
  s.map fun c => if c = a then b else c

/-- `str.upper()` on ASCII text. -/
def pyUpper (s : List Char) : List Char := s.map Char.toUpper

/-! ### strip_ansi (twparser.py lines 50-68)

The ANSI pattern, as one regex: either ESC followed by an Fe byte
(`[@-Z\\-_]`), or a single 8-bit Fe byte (`[\x80-\x9A\x9C-\x9F]`), or a CSI
introducer (ESC `[` or `\x9B`) followed by parameter bytes `[0-?]*`,
intermediate bytes (space through slash, starred) and a final byte `[@-~]`. -/

def ansiRE : RE :=
  .alt (.seq (.chrC fun c => c = '\x1b')
             (.chrC fun c => ('@' ≤ c && c ≤ 'Z') || ('\\' ≤ c && c ≤ '_')))
  (.alt (.chrC fun c => ('\x80' ≤ c && c ≤ '\x9a') || ('\x9c' ≤ c && c ≤ '\x9f'))
        (.seq (.alt (.seq (.chrC fun c => c = '\x1b') (.chrC fun c => c = '['))
                    (.chrC fun c => c = '\x9b'))
              (.seq (.star (.chrC fun c => '0' ≤ c && c ≤ '?'))
                    (.seq (.star (.chrC fun c => ' ' ≤ c && c ≤ '/'))
                          (.chrC fun c => '@' ≤ c && c ≤ '~')))))

/-- `re.sub(ansi, '', s)`: scan left to right, deleting each match (every
branch of `ansiRE` consumes at least one character, so each step shrinks
the input; the fuel equals the input length). -/
def stripAnsiAux : Nat → List Char → List Char
  | 0, s => s
  | _, [] => []
  | Nat.succ f, c :: rest =>
    match pyMatchRem ansiRE (c :: rest) with
    | some rem =>
      if rem.length < rest.length + 1 then stripAnsiAux f rem
      else c :: stripAnsiAux f rest
    | none => c :: stripAnsiAux f rest

/-- twparser.py `strip_ansi`, on decoded text. -/
def stripAnsi (s : List Char) : List Char := stripAnsiAux s.length s

/-! ### The Graph Store (the SQLite tables of twparser.py lines 287-334) -/

/-- A row of the `ports` table (minus the sector primary key). -/
structure PortRec where
  klass : List Char
  ore_amt : Nat
  ore_pct : Nat
  org_amt : Nat
  org_pct : Nat
  equ_amt : Nat
  equ_pct : Nat
  last_seen : Nat
  deriving DecidableEq

/-- A row of the `planets` table (minus the id primary key). -/
structure PlanetRec where
  sector : Nat
  name : List Char
  klass : List Char
  citadel : Nat
  deriving DecidableEq

/-- The persistent store: `warps(source, destination)` with primary key on
the pair, `explored(sector)`, `fighters(sector)`, and the keyed tables
`ports` and `planets` as association lists (primary key replaces). -/
structure Store where
  warps : Finset (Nat × Nat)
  explored : Finset Nat
  fighters : Finset Nat
  ports : List (Nat × PortRec)
  planets : List (Nat × PlanetRec)

/-- The empty store (freshly created tables). -/
def emptyStore : Store := ⟨∅, ∅, ∅, [], []⟩

/-- `REPLACE INTO` a table keyed by a primary key. -/
def upsertKey {α : Type} (n : Nat) (r : α) (l : List (Nat × α)) : List (Nat × α) :=
  (n, r) :: l.filter fun p => !(p.1 = n)

/-- Primary-key lookup. -/
def lookupKey {α : Type} (l : List (Nat × α)) (n : Nat) : Option α :=
  (l.find? fun p => p.1 = n).map Prod.snd

/-! ### The database write operations (twparser.py lines 77-173)

Each queued operation carries the captured groups of the match object it was
enqueued with, exactly as `db_queue(func, match)` does.  `int()` failure
inside an operation raises; the consumer loop catches and logs the exception
and the store is unchanged (twparser.py lines 271-272), which the model
renders as the identity. -/

inductive DbOp where
  | clearFighters : DbOp
  | saveFighter (sector : List Char) : DbOp
  | saveWarpList (sector warps : List Char) : DbOp
  | savePortList (sector ore_bs ore_amt ore_pct org_bs org_amt org_pct
      equ_bs equ_amt equ_pct : List Char) : DbOp
  | savePlanetList (sector id name klass citadel : List Char) : DbOp
  | saveRouteList (route : List Char) : DbOp
  deriving DecidableEq

/-- twparser.py lines 77-82: `DELETE FROM fighters`. -/
def clear_fighter_locations (st : Store) : Store :=
  { st with fighters := ∅ }

/-- twparser.py lines 84-91: `REPLACE INTO fighters (sector)`. -/
def save_fighter_location (sector : List Char) (st : Store) : Store :=
  match pyIntStrip sector with
  | some n => { st with fighters := insert n st.fighters }
  | none => st

/-- twparser.py lines 93-114: mark the sector explored and `REPLACE INTO
warps` each `(sector, warp)` pair found in the warps group. -/
def save_warp_list (sector warps : List Char) (st : Store) : Store :=
  match pyIntStrip sector with
  | some n =>
    { st with
      explored := insert n st.explored,
      warps := (findallNums warps).foldl (fun w d => insert (n, d) w) st.warps }
  | none => st

/-- The row `save_port_list` builds (twparser.py lines 117-137): the class
string is the three buy/sell columns concatenated, with `' '` replaced by
`'S'` and then `'-'` by `'B'`; `last_seen` is the application time.  `none`
when some `int()` raises. -/
def buildPortRow (t : Nat) (sector ore_bs ore_amt ore_pct org_bs org_amt
    org_pct equ_bs equ_amt equ_pct : List Char) : Option (Nat × PortRec) :=
  match pyIntStrip sector, pyIntStrip ore_amt, pyIntStrip ore_pct,
        pyIntStrip org_amt, pyIntStrip org_pct,
        pyIntStrip equ_amt, pyIntStrip equ_pct with
  | some n, some oa, some op, some ga, some gp, some ea, some ep =>
    some (n, { klass := pyReplaceChar '-' 'B'
                 (pyReplaceChar ' ' 'S' (ore_bs ++ org_bs ++ equ_bs)),
               ore_amt := oa, ore_pct := op, org_amt := ga, org_pct := gp,
               equ_amt := ea, equ_pct := ep, last_seen := t })
  | _, _, _, _, _, _, _ => none

/-- twparser.py lines 117-137: `REPLACE INTO ports`. -/
def save_port_list (t : Nat) (sector ore_bs ore_amt ore_pct org_bs org_amt
    org_pct equ_bs equ_amt equ_pct : List Char) (st : Store) : Store :=
  match buildPortRow t sector ore_bs ore_amt ore_pct org_bs org_amt org_pct
      equ_bs equ_amt equ_pct with
  | some (n, r) => { st with ports := upsertKey n r st.ports }
  | none => st

/-- The row `save_planet_list` builds (twparser.py lines 139-158): the
citadel level is the last character of the stripped citadel group, with
`'l'` (from "No Citadel") read as `'0'`. -/
def buildPlanetRow (sector idg name klass citadel : List Char) :
    Option (Nat × PlanetRec) :=
  match (pyStrip citadel).getLast? with
  | none => none
  | some c =>
    let c2 := if c = 'l' then '0' else c
    match pyIntStrip sector, pyIntStrip idg, pyIntStrip [c2] with
    | some n, some i, some lvl =>
      some (i, { sector := n, name := pyStrip name, klass := pyStrip klass,
                 citadel := lvl })
    | _, _, _ => none

/-- twparser.py lines 139-158: `REPLACE INTO planets`. -/
def save_planet_list (sector idg name klass citadel : List Char)
    (st : Store) : Store :=
  match buildPlanetRow sector idg name klass citadel with
  | some (i, r) => { st with planets := upsertKey i r st.planets }
  | none => st

/-- twparser.py lines 160-173: every consecutive pair of the numbers in the
route group becomes a warp. -/
def save_route_list (route : List Char) (st : Store) : Store :=
  let nums := findallNums route
  { st with warps := (nums.zip nums.tail).foldl (fun w p => insert p w) st.warps }

/-- Apply one queued operation to the store at time `t` (the consumer side
of `dbqueue_service`; `t` stands for SQLite's `date('now')`). -/
def applyOpAt (t : Nat) (op : DbOp) (st : Store) : Store :=
  match op with
  | .clearFighters => clear_fighter_locations st
  | .saveFighter s => save_fighter_location s st
  | .saveWarpList s w => save_warp_list s w st
  | .savePortList s a b c d e f g h i => save_port_list t s a b c d e f g h i st
  | .savePlanetList s i n k c => save_planet_list s i n k c st
  | .saveRouteList r => save_route_list r st

/-! ### parse_game_line (twparser.py lines 180-243)

The function is split at each of the source's sequential pattern checks, so
that each early `return` corresponds to a phase that does not call the next
one.  The parser state is the global `routeList` buffer; the result is the
new state plus the operations passed to `db_queue`, in enqueue order. -/

/-- The multi-line route accumulator state: the global `routeList`
(`none` = Python `None`). -/
structure PState where
  routeList : Option (List Char)
  deriving DecidableEq

/-- Match of `clearFightersRe`. -/
def clearFightersB (l : List Char) : Bool := (pyMatch clearFightersRE l).isSome

/-- Match of `saveFightersRe`, returning the sector group. -/
def saveFightersM (l : List Char) : Option (List Char) :=
  (pyMatch saveFightersRE l).map (grpGet · 1)

/-- Match of `warpListRe`, returning the sector and warps groups. -/
def warpListM (l : List Char) : Option (List Char × List Char) :=
  (pyMatch warpListRE l).map fun c => (grpGet c 1, grpGet c 2)

/-- Match of `portListRe`, returning groups 1-10. -/
def portListM (l : List Char) : Option (List (List Char)) :=
  (pyMatch portListRE l).map fun c => [1,2,3,4,5,6,7,8,9,10].map (grpGet c)

/-- Match of `planetListRe`, returning groups 1-5. -/
def planetListM (l : List Char) : Option (List (List Char)) :=
  (pyMatch planetListRE l).map fun c => [1,2,3,4,5].map (grpGet c)

/-- Match of `routeListRestRe`. -/
def routeRestB (l : List Char) : Bool := (pyMatch routeListRestRE l).isSome

/-- Match of `routeListCompleteCIMRe`, returning the route group. -/
def routeCompleteCIMM (l : List Char) : Option (List Char) :=
  (pyMatch routeListCompleteCIMRE l).map (grpGet · 1)

/-- Match of `routeListCompleteCFRe`, returning the route group. -/
def routeCompleteCFM (l : List Char) : Option (List Char) :=
  (pyMatch routeListCompleteCFRE l).map (grpGet · 1)

/-- Match of `routeListFromCIMRe`. -/
def routeFromCIMB (l : List Char) : Bool := (pyMatch routeListFromCIMRE l).isSome

/-- Match of `routeListFromCFRe`. -/
def routeFromCFB (l : List Char) : Bool := (pyMatch routeListFromCFRE l).isSome

/-- twparser.py lines 216-224: the buffer update.  If a buffer is in
progress (`routeList` truthy, i.e. a nonempty string), a blank line
substitutes the buffer for the working line and clears it, a continuation
line is appended to the buffer space-joined, and any other line drops the
buffer.  Returns (working line, new buffer). -/
def routeStep (st : PState) (l : List Char) : List Char × Option (List Char) :=
  match st.routeList with
  | some buf =>
    if buf.isEmpty then (l, st.routeList)
    else if l.isEmpty then (buf, none)
    else if routeRestB l then (l, some (buf ++ ' ' :: l))
    else (l, none)
  | none => (l, none)

/-- twparser.py lines 226-243: the complete-route and route-opening checks
on the working line `l2`, with `rl` the buffer value left by lines
216-224. -/
def routeEmit (l2 : List Char) (rl : Option (List Char)) : PState × List DbOp :=
  match routeCompleteCIMM l2 with
  | some r => (⟨rl⟩, [DbOp.saveRouteList r])
  | none =>
    match routeCompleteCFM l2 with
    | some r => (⟨rl⟩, [DbOp.saveRouteList r])
    | none =>
      if routeFromCIMB l2 then (⟨some l2⟩, [])
      else if routeFromCFB l2 then (⟨some l2⟩, [])
      else (⟨rl⟩, [])

/-- The whole route block. -/
def routePhase (st : PState) (l : List Char) : PState × List DbOp :=
  routeEmit (routeStep st l).1 (routeStep st l).2

/-- twparser.py lines 211-214: the planet check enqueues but does not
return, so the route block still runs. -/
def planetPhase (st : PState) (l : List Char) : PState × List DbOp :=
  let rest := routePhase st l
  match planetListM l with
  | some g =>
    (rest.1, DbOp.savePlanetList (g.getD 0 []) (g.getD 1 []) (g.getD 2 [])
       (g.getD 3 []) (g.getD 4 []) :: rest.2)
  | none => rest

/-- twparser.py lines 205-209: a port-listing match enqueues and returns. -/
def portPhase (st : PState) (l : List Char) : PState × List DbOp :=
  match portListM l with
  | some g =>
    (st, [DbOp.savePortList (g.getD 0 []) (g.getD 1 []) (g.getD 2 [])
      (g.getD 3 []) (g.getD 4 []) (g.getD 5 []) (g.getD 6 []) (g.getD 7 [])
      (g.getD 8 []) (g.getD 9 [])])
  | none => planetPhase st l

/-- twparser.py lines 199-203: a warp-list match enqueues and returns. -/
def warpPhase (st : PState) (l : List Char) : PState × List DbOp :=
  match warpListM l with
  | some g => (st, [DbOp.saveWarpList g.1 g.2])
  | none => portPhase st l

/-- twparser.py lines 194-197: a fighter-row match enqueues and falls
through to the next check. -/
def fighterPhase (st : PState) (l : List Char) : PState × List DbOp :=
  match saveFightersM l with
  | some sec =>
    let rest := warpPhase st l
    (rest.1, DbOp.saveFighter sec :: rest.2)
  | none => warpPhase st l

/-- twparser.py lines 188-243 on an already stripped line: the fighter-scan
header check enqueues a clear and returns; everything else is the phase
chain. -/
def parseStripped (st : PState) (l : List Char) : PState × List DbOp :=
  if clearFightersB l then (st, [DbOp.clearFighters])
  else fighterPhase st l

/-- twparser.py lines 180-243, on decoded text: strip ANSI sequences,
`rstrip`, then classify.  (The bytes-level `.decode('utf-8')` and its
`except: return` guard are outside this text-level model.) -/
def parse_game_line (st : PState) (raw : List Char) : PState × List DbOp :=
  parseStripped st (pyRstrip (stripAnsi raw))

/-- Feed one line through the classifier and apply its operations to the
store immediately, in enqueue order (the FIFO drain, see `qrun`). -/
def ingestLine (t : Nat) (s : PState × Store) (raw : List Char) :
    PState × Store :=
  let r := parse_game_line s.1 raw
  (r.1, r.2.foldl (fun st op => applyOpAt t op st) s.2)

/-- Feed a list of raw lines through classifier and store. -/
def ingestLines (t : Nat) (s : PState × Store) (lines : List (List Char)) :
    PState × Store :=
  lines.foldl (ingestLine t) s

/-! ### The persistence queue (twparser.py lines 18, 176-177, 245-272)

`dbqueue` is a FIFO `queue.Queue`; `db_queue` appends at the tail;
`dbqueue_service` is the single consumer popping from the head and applying
each operation at once.  The model interleaves one producer (moving the
next classified operation into the queue) with the consumer under an
arbitrary schedule. -/

structure QSys where
  pending : List DbOp
  queue : List DbOp
  applied : List DbOp
  store : Store

/-- One scheduler step: `true` lets the producer enqueue its next
operation, `false` lets the consumer pop and apply the head. -/
def qstep (t : Nat) (sys : QSys) (produce : Bool) : QSys :=
  if produce then
    match sys.pending with
    | [] => sys
    | op :: rest =>
      { sys with pending := rest, queue := sys.queue ++ [op] }
  else
    match sys.queue with
    | [] => sys
    | op :: rest =>
      { sys with queue := rest, applied := sys.applied ++ [op],
                 store := applyOpAt t op sys.store }

/-- Run a schedule. -/
def qrun (t : Nat) (sched : List Bool) (sys : QSys) : QSys :=
  sched.foldl (qstep t) sys

/-! ### portPairs.py -/

/-- portPairs.py line 63: the complementary pattern,
`replace("B","T").replace("S","B").replace("T","S")`. -/
def oppositePortType (s : List Char) : List Char :=
  pyReplaceChar 'T' 'S' (pyReplaceChar 'S' 'B' (pyReplaceChar 'B' 'T' s))

/-- Full match of a regex consisting only of literal characters and `.`,
as built on portPairs.py lines 65-66 from a `[BS?]` pattern with `?`
replaced by `.` and wrapped in `^`/`$`. -/
def dotMatch : List Char → List Char → Bool
  | [], [] => true
  | p :: ps, c :: cs => (p = '.' || p = c) && dotMatch ps cs
  | _, _ => false

/-- portPairs.py lines 65-66, 88, 93: does a port class match the (already
upper-cased) desired pattern, `?` wild. -/
def classMatchB (pat cls : List Char) : Bool :=
  dotMatch (pyReplaceChar '?' '.' pat) cls

/-- `tuple(sorted([a, b]))` for two sector numbers (portPairs.py line 94). -/
def sortedPair (a b : Nat) : Nat × Nat :=
  if a ≤ b then (a, b) else (b, a)

/-- portPairs.py lines 70-94: the candidate set.  `ports` is the ports
table keyed by sector; a candidate is the sorted pair of a port A matching
the desired pattern and a one-hop warp neighbour B (holding a port)
matching the complement.  The dict keyed by sorted tuple deduplicates. -/
def candidateList (ports : List (Nat × PortRec)) (warps : Finset (Nat × Nat))
    (ptU : List Char) : List (Nat × Nat) :=
  let opp := oppositePortType ptU
  (ports.flatMap fun pA =>
    if classMatchB ptU pA.2.klass then
      ports.filterMap fun pB =>
        if (pA.1, pB.1) ∈ warps ∧ classMatchB opp pB.2.klass then
          some (sortedPair pA.1 pB.1)
        else none
    else []).dedup

/-- The candidate keys as a set. -/
def candidateKeys (ports : List (Nat × PortRec)) (warps : Finset (Nat × Nat))
    (ptU : List Char) : Finset (Nat × Nat) :=
  (candidateList ports warps ptU).toFinset

/-- portPairs.py `main` up to line 94, reading the store: the pattern is
upper-cased first (line 62). -/
def portPairCandidates (st : Store) (port_type : List Char) :
    Finset (Nat × Nat) :=
  candidateKeys st.ports st.warps (pyUpper port_type)

/-- portPairs.py lines 41-53: the (percentage, amount) score of a candidate
pair, summing both ports' figures at each pattern position that is not
`?`. -/
def port_score (pA pB : PortRec) (port_type : List Char) : Nat × Nat :=
  let pct0 := if !(port_type.getD 0 '?' = '?')
    then pA.ore_pct + pB.ore_pct else 0
  let amt0 := if !(port_type.getD 0 '?' = '?')
    then pA.ore_amt + pB.ore_amt else 0
  let pct1 := if !(port_type.getD 1 '?' = '?')
    then pA.org_pct + pB.org_pct else 0
  let amt1 := if !(port_type.getD 1 '?' = '?')
    then pA.org_amt + pB.org_amt else 0
  let pct2 := if !(port_type.getD 2 '?' = '?')
    then pA.equ_pct + pB.equ_pct else 0
  let amt2 := if !(port_type.getD 2 '?' = '?')
    then pA.equ_amt + pB.equ_amt else 0
  (pct0 + pct1 + pct2, amt0 + amt1 + amt2)

/-- Ascending comparison on Python pairs (tuple comparison is
lexicographic). -/
def pairLe (x y : Nat × Nat) : Bool :=
  Nat.blt x.1 y.1 || (x.1 = y.1 && Nat.ble x.2 y.2)

/-- A default port row, for the total lookup in the sort key (the keys of
`candidates` are sectors of `ports`, so the default is never used on real
data). -/
def dfltPort : PortRec := ⟨[], 0, 0, 0, 0, 0, 0, 0⟩

/-- portPairs.py line 102's sort key for a candidate pair. -/
def candKey (ports : List (Nat × PortRec)) (ptU : List Char)
    (ab : Nat × Nat) : Nat × Nat :=
  port_score ((lookupKey ports ab.1).getD dfltPort)
    ((lookupKey ports ab.2).getD dfltPort) ptU

/-- portPairs.py line 102: `sorted(candidates.keys(), key=port_score ...)`,
ascending by the (pct, amt) pair. -/
def emittedPairs (st : Store) (port_type : List Char) : List (Nat × Nat) :=
  let ptU := pyUpper port_type
  (candidateList st.ports st.warps ptU).mergeSort fun a b =>
    pairLe (candKey st.ports ptU a) (candKey st.ports ptU b)

/-! ## Concrete data shared by the claim theorems -/

/-- The route-plan opening line of claim C1. -/
def routeOpen : List Char := "FM > 100".toList

/-- The continuation line exactly as claim C1 states it (it contains the
letter `A`, which the continuation pattern `[0-9 ()>]+` does not admit). -/
def routeContClaimed : List Char := "  TO > 200 (A) 100 > 150 > 200".toList

/-- The same continuation line without the offending letter. -/
def routeContOk : List Char := "  TO > 200 100 > 150 > 200".toList

/-- An in-progress route buffer. -/
def fmBuf : List Char := "FM > 100".toList

/-- A fighter-scan header line. -/
def hdrLine : List Char := "Deployed  Fighter  Scan".toList

/-- A CIM port-listing line (sector 1, class BSB as buy/sell columns
`-`, `' '`, `-`). -/
def portLine : List Char := "   1 -  100  50%    200  60% -  300  70%".toList

/-- Claim C3's store: sector 1 holds a class-BBS port, sector 2 a class-SSB
port, and the single warp is 1 to 2. -/
def pRecA : PortRec := ⟨"BBS".toList, 10, 1, 20, 2, 30, 3, 0⟩

/-- The class-SSB port of sector 2 in claim C3's store. -/
def pRecB : PortRec := ⟨"SSB".toList, 40, 4, 50, 5, 60, 6, 0⟩

/-- The two-port store of claim C3. -/
def storeC3 : Store :=
  { emptyStore with ports := [(1, pRecA), (2, pRecB)], warps := {(1, 2)} }

/-! ## Claim C1 -/

/-- C1, counterexample: the claim's exact input fails.  The continuation
line `"  TO > 200 (A) 100 > 150 > 200"` does not match the continuation
pattern `^(?:  TO)?[0-9 ()>]+$` (the letter `A` is not admitted), so the
accumulation is abandoned and no warp at all is recorded — in particular
not 100 to 150. -/
theorem claim_C1_counterexample :
    routeRestB routeContClaimed = false ∧
    (ingestLines 0 ((⟨none⟩ : PState), emptyStore)
        [routeOpen, routeContClaimed, []]).2.warps = ∅ ∧
    ((100 : Nat), (150 : Nat)) ∉ (ingestLines 0 ((⟨none⟩ : PState), emptyStore)
        [routeOpen, routeContClaimed, []]).2.warps := by
  refine ⟨by decide, by decide, by decide⟩

/-- C1, amended: starting from the idle accumulator state, the opening line
`"FM > 100"`, a continuation line containing only sector numbers, spaces,
parentheses and arrows — `"  TO > 200 100 > 150 > 200"` — and a blank line
record exactly the directed warps 100 to 150 and 150 to 200 (the extracted
route sequence is 100, 150, 200 and every consecutive pair is stored). -/
theorem claim_C1_theorem :
    (ingestLines 0 ((⟨none⟩ : PState), emptyStore)
        [routeOpen, routeContOk, []]).2.warps
      = {((100 : Nat), (150 : Nat)), (150, 200)} := by decide

/-! ## Claim C3 -/

/-- C3: on a store whose only ports are sector 1 (class BBS) and sector 2
(class SSB) with the single warp 1 to 2, the port-pair search for pattern
`"?BS"` yields exactly the one unordered candidate pair (1, 2); and in
general the candidate key of (a, b) equals that of (b, a), so candidates
are deduplicated by unordered identity. -/
theorem claim_C3_theorem :
    portPairCandidates storeC3 "?BS".toList = {((1 : Nat), (2 : Nat))} ∧
    ∀ a b : Nat, sortedPair a b = sortedPair b a := by
  constructor
  · decide
  · intro a b
    unfold sortedPair
    split <;> split <;>
      first
        | rfl
        | (exfalso; omega)
        | (have h : a = b := by omega
           subst h; rfl)

/-! ## Claim C5 -/

/-- C5: on patterns over the alphabet B, S, ? the complement operation of
portPairs.py line 63 (`replace("B","T").replace("S","B").replace("T","S")`)
swaps B and S and fixes ?, hence applying it twice is the identity; and the
complement of `"?BS"` is `"?SB"`. -/
theorem claim_C5_theorem :
    (∀ p : List Char, (∀ c ∈ p, c = 'B' ∨ c = 'S' ∨ c = '?') → p.length = 3 →
      oppositePortType (oppositePortType p) = p) ∧
    oppositePortType "?BS".toList = "?SB".toList := by
  constructor
  · intro p hmem _
    unfold oppositePortType pyReplaceChar
    simp only [List.map_map]
    conv_rhs => rw [(List.map_id p).symm]
    apply List.map_congr_left
    intro x hx
    rcases hmem x hx with rfl | rfl | rfl <;> rfl
  · decide

/-- C5, witness: the involution law instantiated at the pattern `"?BS"`. -/
theorem claim_C5_witness :
    oppositePortType (oppositePortType "?BS".toList) = "?BS".toList :=
  claim_C5_theorem.1 _ (by decide) (by decide)

/-! ## Claim C6 -/

/-- C6, counterexample: a fighter-scan header match does prevent the later
checks from running.  With a route accumulation in progress, the header
line makes `parse_game_line` return immediately after enqueueing the clear,
leaving the buffer in place — whereas the checks below it (starting at the
fighter-row check, `fighterPhase`) would have discarded the buffer had they
run on the same line. -/
theorem claim_C6_counterexample :
    clearFightersB hdrLine = true ∧
    parse_game_line ⟨some fmBuf⟩ hdrLine
      = (⟨some fmBuf⟩, [DbOp.clearFighters]) ∧
    (fighterPhase ⟨some fmBuf⟩ hdrLine).1 = (⟨none⟩ : PState) := by
  refine ⟨by decide, by decide, by decide⟩

/-- C6, amended: a warp-list match, a port-listing match AND a fighter-scan
header match each short-circuit the remaining category checks for that
line, while a fighter-scan row match and a planet-listing row match do not:
the fighter-row and planet-row cases continue into all later checks
(including the route block), whereas the header, warp and port cases return
at once with the accumulator state untouched. -/
theorem claim_C6_theorem : ∀ (st : PState) (l : List Char),
    (clearFightersB l = true → parseStripped st l = (st, [DbOp.clearFighters])) ∧
    (clearFightersB l = false → ∀ sec, saveFightersM l = some sec →
      parseStripped st l
        = ((warpPhase st l).1, DbOp.saveFighter sec :: (warpPhase st l).2)) ∧
    (∀ g, warpListM l = some g →
      warpPhase st l = (st, [DbOp.saveWarpList g.1 g.2])) ∧
    (∀ g, portListM l = some g →
      portPhase st l = (st, [DbOp.savePortList (g.getD 0 []) (g.getD 1 [])
        (g.getD 2 []) (g.getD 3 []) (g.getD 4 []) (g.getD 5 []) (g.getD 6 [])
        (g.getD 7 []) (g.getD 8 []) (g.getD 9 [])])) ∧
    (∀ g, planetListM l = some g →
      planetPhase st l = ((routePhase st l).1,
        DbOp.savePlanetList (g.getD 0 []) (g.getD 1 []) (g.getD 2 [])
          (g.getD 3 []) (g.getD 4 []) :: (routePhase st l).2)) := by
  intro st l
  refine ⟨fun h => by simp [parseStripped, h],
          fun h sec hf => by simp [parseStripped, h, fighterPhase, hf],
          fun g hw => by simp [warpPhase, hw],
          fun g hp => by simp [portPhase, hp],
          fun g hq => by simp [planetPhase, hq]⟩

/-- C6, witness: the header case instantiated on a concrete accumulating
state and the concrete header line. -/
theorem claim_C6_witness :
    parseStripped ⟨some fmBuf⟩ hdrLine = (⟨some fmBuf⟩, [DbOp.clearFighters]) :=
  (claim_C6_theorem ⟨some fmBuf⟩ hdrLine).1 (by decide)

/-! ## Claim C7 -/

/-- C7, counterexample: with a route accumulation in progress, a
port-listing line — which is neither blank nor a continuation — does NOT
discard the buffer: the port check returns before the route block runs, so
the accumulator stays in the accumulating state. -/
theorem claim_C7_counterexample :
    portLine ≠ [] ∧ routeRestB portLine = false ∧
    (parse_game_line ⟨some fmBuf⟩ portLine).1 = (⟨some fmBuf⟩ : PState) ∧
    (parse_game_line ⟨some fmBuf⟩ portLine).2
      = [DbOp.savePortList "   1".toList "-".toList " 100".toList " 50".toList
          " ".toList " 200".toList " 60".toList "-".toList " 300".toList
          " 70".toList] := by
  refine ⟨by decide, by decide, by decide, by decide⟩

/-- C7, amended: with an accumulation in progress, a line that is neither
blank nor a continuation discards the buffer, returns the accumulator to
idle and emits no route record — provided the line does not match the
fighter-scan header, warp-list or port-listing patterns (those return
before the route block and leave the buffer unchanged) and is not itself a
complete-route or route-opening line (those emit or restart an
accumulation for the new line). -/
theorem claim_C7_theorem : ∀ (buf l : List Char),
    buf ≠ [] → l ≠ [] →
    routeRestB l = false →
    clearFightersB l = false →
    warpListM l = none →
    portListM l = none →
    routeCompleteCIMM l = none →
    routeCompleteCFM l = none →
    routeFromCIMB l = false →
    routeFromCFB l = false →
    (parseStripped ⟨some buf⟩ l).1 = (⟨none⟩ : PState) ∧
    ∀ r, DbOp.saveRouteList r ∉ (parseStripped ⟨some buf⟩ l).2 := by
  intro buf l hbuf hl hrest hclear hwarp hport hcim hccf hfcim hfcf
  have hroute : routePhase ⟨some buf⟩ l = ((⟨none⟩ : PState), []) := by
    simp [routePhase, routeStep, routeEmit, List.isEmpty_iff, hbuf, hl, hrest,
      hcim, hccf, hfcim, hfcf]
  cases hf : saveFightersM l <;> cases hq : planetListM l <;>
    simp [parseStripped, hclear, fighterPhase, hf, warpPhase, hwarp,
      portPhase, hport, planetPhase, hq, hroute]

/-- C7, witness: a buffer is discarded by unrelated prose
(`"hello"` matches no category). -/
theorem claim_C7_witness :
    (parseStripped ⟨some fmBuf⟩ ("hello".toList)).1 = (⟨none⟩ : PState) :=
  (claim_C7_theorem fmBuf ("hello".toList) (by decide) (by decide) (by decide)
    (by decide) (by decide) (by decide) (by decide) (by decide) (by decide)
    (by decide)).1

/-! ## Claim C2 -/

/-- A sequence of warp-list observations (each a matched sector group and
warps group) applied through the queue to the store. -/
def ingestWarpObs (t : Nat) (S : Store)
    (obs : List (List Char × List Char)) : Store :=
  obs.foldl (fun s o => applyOpAt t (DbOp.saveWarpList o.1 o.2) s) S

/-- The (source, destination) pairs one warp-list observation reports. -/
def obsPairs (o : List Char × List Char) : List (Nat × Nat) :=
  match pyIntStrip o.1 with
  | some n => (findallNums o.2).map fun d => (n, d)
  | none => []

/-- Folding warp inserts for one source equals a set union. -/
theorem foldl_insert_pairs (n : Nat) :
    ∀ (ds : List Nat) (W : Finset (Nat × Nat)),
    ds.foldl (fun w d => insert (n, d) w) W
      = W ∪ (ds.map fun d => (n, d)).toFinset := by
  intro ds
  induction ds with
  | nil => intro W; simp
  | cons d ds ih =>
    intro W
    simp only [List.foldl_cons, List.map_cons, List.toFinset_cons, ih]
    rw [Finset.insert_union, Finset.union_insert]

/-- One warp-list observation adds exactly its pairs to the edge set. -/
theorem warps_saveWarp (t : Nat) (S : Store) (o : List Char × List Char) :
    (applyOpAt t (DbOp.saveWarpList o.1 o.2) S).warps
      = S.warps ∪ (obsPairs o).toFinset := by
  unfold applyOpAt save_warp_list obsPairs
  cases h : pyIntStrip o.1 with
  | none => simp [h]
  | some n => simp [h, foldl_insert_pairs]

/-- C2: after ingesting any sequence of warp-list observations the edge set
equals the prior edge set united with all observed (source, destination)
pairs — so duplicates are absorbed and the result is order-insensitive —
and no ingestion ever deletes a warp. -/
theorem claim_C2_theorem : ∀ (t : Nat) (S : Store)
    (obs : List (List Char × List Char)),
    (ingestWarpObs t S obs).warps
        = S.warps ∪ (obs.flatMap obsPairs).toFinset ∧
    S.warps ⊆ (ingestWarpObs t S obs).warps ∧
    ∀ obs', obs.Perm obs' →
      (ingestWarpObs t S obs').warps = (ingestWarpObs t S obs).warps := by
  intro t S obs
  have main : ∀ (obs : List (List Char × List Char)) (S : Store),
      (ingestWarpObs t S obs).warps
        = S.warps ∪ (obs.flatMap obsPairs).toFinset := by
    intro obs
    induction obs with
    | nil => intro S; simp [ingestWarpObs]
    | cons o obs ih =>
      intro S
      have h : ingestWarpObs t S (o :: obs)
          = ingestWarpObs t (applyOpAt t (DbOp.saveWarpList o.1 o.2) S) obs :=
        rfl
      rw [h, ih, warps_saveWarp]
      simp [Finset.union_assoc]
  refine ⟨main obs S, ?_, ?_⟩
  · rw [main obs S]; exact Finset.subset_union_left
  · intro obs' hperm
    rw [main obs S, main obs' S]
    congr 1
    ext x
    simp only [List.mem_toFinset, List.mem_flatMap]
    constructor
    · rintro ⟨o, ho, hx⟩; exact ⟨o, hperm.mem_iff.mpr ho, hx⟩
    · rintro ⟨o, ho, hx⟩; exact ⟨o, hperm.mem_iff.mp ho, hx⟩

/-- Three warp-list observations with a duplicate. -/
def obsListA : List (List Char × List Char) :=
  [("   1".toList, "    2    3".toList), ("   2".toList, "    3".toList),
   ("   1".toList, "    2    3".toList)]

/-- The same observations in another order. -/
def obsListB : List (List Char × List Char) :=
  [("   1".toList, "    2    3".toList), ("   1".toList, "    2    3".toList),
   ("   2".toList, "    3".toList)]

/-- C2, witness: a concrete reordered duplicate-bearing sequence gives the
same edge set. -/
theorem claim_C2_witness :
    (ingestWarpObs 0 emptyStore obsListB).warps
      = (ingestWarpObs 0 emptyStore obsListA).warps :=
  (claim_C2_theorem 0 emptyStore obsListA).2.2 obsListB (by decide)

/-! ## Claim C4 -/

/-- The percentage figure of commodity position i (0 = Ore, 1 = Organics,
2 = Equipment). -/
def commodityPct (i : Nat) (p : PortRec) : Nat :=
  if i = 0 then p.ore_pct else if i = 1 then p.org_pct else p.equ_pct

/-- The quantity figure of commodity position i. -/
def commodityAmt (i : Nat) (p : PortRec) : Nat :=
  if i = 0 then p.ore_amt else if i = 1 then p.org_amt else p.equ_amt

/-- The positions of a pattern that are not the wildcard. -/
def nonWildcard (pt : List Char) : Finset Nat :=
  (Finset.range 3).filter fun i => !(pt.getD i '?' = '?')

/-- The pair comparison is transitive. -/
theorem pairLe_trans : ∀ x y z : Nat × Nat,
    pairLe x y = true → pairLe y z = true → pairLe x z = true := by
  intro x y z
  simp only [pairLe, Bool.or_eq_true, Bool.and_eq_true, Nat.blt_eq,
    Nat.ble_eq, decide_eq_true_eq]
  omega

/-- The pair comparison is total. -/
theorem pairLe_total : ∀ x y : Nat × Nat,
    (pairLe x y || pairLe y x) = true := by
  intro x y
  simp only [pairLe, Bool.or_eq_true, Bool.and_eq_true, Nat.blt_eq,
    Nat.ble_eq, decide_eq_true_eq]
  omega

/-- C4: the score of a candidate pair sums, over exactly the non-wildcard
positions of the pattern, both ports' percentage figures (first component)
and both ports' quantity figures (second component); the comparison used on
scores is the ascending lexicographic order on (percentage, amount); and
the emitted candidate list is sorted by it. -/
theorem claim_C4_theorem :
    (∀ (pA pB : PortRec) (pt : List Char), pt.length = 3 →
      port_score pA pB pt
        = (∑ i ∈ nonWildcard pt, (commodityPct i pA + commodityPct i pB),
           ∑ i ∈ nonWildcard pt, (commodityAmt i pA + commodityAmt i pB))) ∧
    (∀ x y : Nat × Nat,
      pairLe x y = true ↔ x.1 < y.1 ∨ (x.1 = y.1 ∧ x.2 ≤ y.2)) ∧
    (∀ (st : Store) (port_type : List Char),
      (emittedPairs st port_type).Pairwise fun a b =>
        pairLe (candKey st.ports (pyUpper port_type) a)
          (candKey st.ports (pyUpper port_type) b) = true) := by
  refine ⟨?_, ?_, ?_⟩
  · intro pA pB pt _
    unfold port_score nonWildcard
    rw [Finset.sum_filter, Finset.sum_filter]
    rw [Finset.sum_range_succ, Finset.sum_range_succ, Finset.sum_range_succ,
        Finset.sum_range_succ, Finset.sum_range_succ, Finset.sum_range_succ,
        Finset.sum_range_zero, Finset.sum_range_zero]
    simp only [commodityPct, commodityAmt]
    norm_num
  · intro x y
    simp only [pairLe, Bool.or_eq_true, Bool.and_eq_true, Nat.blt_eq,
      Nat.ble_eq, decide_eq_true_eq]
  · intro st port_type
    unfold emittedPairs
    exact List.sorted_mergeSort
      (fun a b c hab hbc => pairLe_trans
        (candKey st.ports (pyUpper port_type) a)
        (candKey st.ports (pyUpper port_type) b)
        (candKey st.ports (pyUpper port_type) c) hab hbc)
      (fun a b => pairLe_total (candKey st.ports (pyUpper port_type) a)
        (candKey st.ports (pyUpper port_type) b))
      (candidateList st.ports st.warps (pyUpper port_type))

/-- C4, witness: the scoring law instantiated on the claim C3 ports and
pattern `"?BS"` (positions 1 and 2 contribute, position 0 does not). -/
theorem claim_C4_witness :
    port_score pRecA pRecB ("?BS".toList)
      = (∑ i ∈ nonWildcard ("?BS".toList),
           (commodityPct i pRecA + commodityPct i pRecB),
         ∑ i ∈ nonWildcard ("?BS".toList),
           (commodityAmt i pRecA + commodityAmt i pRecB)) :=
  claim_C4_theorem.1 pRecA pRecB ("?BS".toList) (by decide)

/-! ## Claim C8 -/

/-- The fighter sectors a single operation inserts. -/
def fInserts : DbOp → Finset Nat
  | .saveFighter s =>
    match pyIntStrip s with
    | some n => {n}
    | none => ∅
  | _ => ∅

/-- Any operation other than the clear only ever adds its own fighter
sectors to the fighter set. -/
theorem fighters_applyOp (t : Nat) (op : DbOp) (S : Store)
    (hne : op ≠ DbOp.clearFighters) :
    (applyOpAt t op S).fighters = S.fighters ∪ fInserts op := by
  cases op with
  | clearFighters => exact absurd rfl hne
  | saveFighter s =>
    unfold applyOpAt save_fighter_location fInserts
    cases hs : pyIntStrip s with
    | none => simp [hs]
    | some n =>
      simp only [hs]
      rw [Finset.union_comm, ← Finset.insert_eq]
  | saveWarpList s w =>
    unfold applyOpAt save_warp_list fInserts
    cases hs : pyIntStrip s <;> simp [hs]
  | savePortList a b c d e f g h i j =>
    unfold applyOpAt save_port_list fInserts
    cases hb : buildPortRow t a b c d e f g h i j <;> simp [hb]
  | savePlanetList a b c d e =>
    unfold applyOpAt save_planet_list fInserts
    cases hb : buildPlanetRow a b c d e <;> simp [hb]
  | saveRouteList r =>
    unfold applyOpAt save_route_list fInserts
    simp

/-- The fighter sectors a list of operations inserts. -/
def fIns (ops : List DbOp) : Finset Nat :=
  ops.foldr (fun o a => fInserts o ∪ a) ∅

/-- Applying clear-free operations only adds their fighter inserts. -/
theorem fighters_foldApply (t : Nat) : ∀ (ops : List DbOp) (S : Store),
    DbOp.clearFighters ∉ ops →
    ((ops.foldl (fun s o => applyOpAt t o s) S).fighters
      = S.fighters ∪ fIns ops) := by
  intro ops
  induction ops with
  | nil => intro S _; simp [fIns]
  | cons op rest ih =>
    intro S h
    have h1 : op ≠ DbOp.clearFighters := by
      intro e; exact h (e ▸ List.mem_cons_self _ _)
    have h2 : DbOp.clearFighters ∉ rest := fun m => h (List.mem_cons_of_mem _ m)
    have hf : fIns (op :: rest) = fInserts op ∪ fIns rest := rfl
    simp only [List.foldl_cons, hf]
    rw [ih _ h2, fighters_applyOp t op S h1, Finset.union_assoc]

/-- The route block enqueues at most one route save. -/
theorem routeEmit_ops (l2 : List Char) (rl : Option (List Char)) :
    (routeEmit l2 rl).2 = [] ∨
      ∃ r, (routeEmit l2 rl).2 = [DbOp.saveRouteList r] := by
  unfold routeEmit
  rcases h1 : routeCompleteCIMM l2 with _ | r
  · rcases h2 : routeCompleteCFM l2 with _ | r
    · by_cases h3 : routeFromCIMB l2 <;> by_cases h4 : routeFromCFB l2 <;>
        simp [h3, h4]
    · exact Or.inr ⟨r, by simp⟩
  · exact Or.inr ⟨r, by simp⟩

/-- The checks from the warp-list check onward never enqueue a clear or a
fighter insert. -/
theorem warpPhase_tail (st : PState) (l : List Char) :
    DbOp.clearFighters ∉ (warpPhase st l).2 ∧ fIns (warpPhase st l).2 = ∅ := by
  cases hw : warpListM l with
  | some g => simp [warpPhase, hw, fIns, fInserts]
  | none =>
    cases hp : portListM l with
    | some g => simp [warpPhase, hw, portPhase, hp, fIns, fInserts]
    | none =>
      have hroute : (routePhase st l).2 = [] ∨
          ∃ r, (routePhase st l).2 = [DbOp.saveRouteList r] :=
        routeEmit_ops (routeStep st l).1 (routeStep st l).2
      rcases hroute with h | ⟨r, h⟩ <;>
        cases hq : planetListM l <;>
          simp [warpPhase, hw, portPhase, hp, planetPhase, hq, h, fIns,
            fInserts]

/-- The fighter sector a raw line reports, if it is a fighter-scan row with
a readable sector number. -/
def fighterSectorOf (raw : List Char) : Option Nat :=
  (saveFightersM (pyRstrip (stripAnsi raw))).bind pyIntStrip

/-- A non-header line changes the fighter set only by inserting the sector
of its fighter-row match, if any. -/
theorem fighters_ingestLine (t : Nat) (p : PState × Store) (raw : List Char)
    (hclear : clearFightersB (pyRstrip (stripAnsi raw)) = false) :
    (ingestLine t p raw).2.fighters
      = p.2.fighters ∪ (match fighterSectorOf raw with
          | some n => ({n} : Finset Nat)
          | none => ∅) := by
  obtain ⟨st, S⟩ := p
  have hps : parse_game_line st raw
      = fighterPhase st (pyRstrip (stripAnsi raw)) := by
    simp [parse_game_line, parseStripped, hclear]
  have hlin : (ingestLine t (st, S) raw).2
      = (fighterPhase st (pyRstrip (stripAnsi raw))).2.foldl
          (fun s o => applyOpAt t o s) S := by
    simp [ingestLine, hps]
  rw [hlin]
  cases hf : saveFightersM (pyRstrip (stripAnsi raw)) with
  | none =>
    have hops : (fighterPhase st (pyRstrip (stripAnsi raw))).2
        = (warpPhase st (pyRstrip (stripAnsi raw))).2 := by
      simp [fighterPhase, hf]
    rw [hops, fighters_foldApply t _ S (warpPhase_tail st _).1,
      (warpPhase_tail st _).2]
    simp [fighterSectorOf, hf]
  | some sec =>
    have hops : (fighterPhase st (pyRstrip (stripAnsi raw))).2
        = DbOp.saveFighter sec
            :: (warpPhase st (pyRstrip (stripAnsi raw))).2 := by
      simp [fighterPhase, hf]
    have hmem : DbOp.clearFighters
        ∉ DbOp.saveFighter sec
            :: (warpPhase st (pyRstrip (stripAnsi raw))).2 := by
      intro hm
      rcases List.mem_cons.mp hm with h | h
      · exact DbOp.noConfusion h
      · exact (warpPhase_tail st _).1 h
    rw [hops, fighters_foldApply t _ S hmem]
    have hsplit : fIns (DbOp.saveFighter sec
          :: (warpPhase st (pyRstrip (stripAnsi raw))).2)
        = fInserts (DbOp.saveFighter sec)
            ∪ fIns (warpPhase st (pyRstrip (stripAnsi raw))).2 := rfl
    rw [hsplit, (warpPhase_tail st _).2, Finset.union_empty]
    simp only [fighterSectorOf, hf, Option.bind_some]
    unfold fInserts
    cases hn : pyIntStrip sec <;> simp [hn]

/-- Ingesting clear-free fighter rows adds exactly their sectors. -/
theorem fighters_ingestRows (t : Nat) : ∀ (rows : List (List Char))
    (ns : List Nat) (p : PState × Store),
    (∀ r ∈ rows, clearFightersB (pyRstrip (stripAnsi r)) = false) →
    rows.map fighterSectorOf = ns.map some →
    (ingestLines t p rows).2.fighters = p.2.fighters ∪ ns.toFinset := by
  intro rows
  induction rows with
  | nil =>
    intro ns p _ hmap
    cases ns with
    | nil => simp [ingestLines]
    | cons n ns' => simp at hmap
  | cons r rows ih =>
    intro ns p hclear hmap
    cases ns with
    | nil => simp at hmap
    | cons n ns' =>
      simp only [List.map_cons, List.cons.injEq] at hmap
      obtain ⟨hr, hrest⟩ := hmap
      have hstep := fighters_ingestLine t p r (hclear r (List.mem_cons_self _ _))
      rw [hr] at hstep
      have h1 : ingestLines t p (r :: rows)
          = ingestLines t (ingestLine t p r) rows := rfl
      rw [h1, ih ns' _ (fun x hx => hclear x (List.mem_cons_of_mem _ hx)) hrest,
        hstep, Finset.union_assoc, List.toFinset_cons, Finset.insert_eq]

/-- C8: ingesting a fighter-scan header followed by N fighter-scan rows
naming sectors `ns` leaves the fighter set equal to exactly those sectors,
whatever the fighter set (and the rest of the store, and the accumulator
state) contained before; with zero rows the fighter set ends empty. -/
theorem claim_C8_theorem : ∀ (t : Nat) (st : PState) (S : Store)
    (hdr : List Char) (rows : List (List Char)) (ns : List Nat),
    clearFightersB (pyRstrip (stripAnsi hdr)) = true →
    (∀ r ∈ rows, clearFightersB (pyRstrip (stripAnsi r)) = false) →
    rows.map fighterSectorOf = ns.map some →
    (ingestLines t (st, S) (hdr :: rows)).2.fighters = ns.toFinset := by
  intro t st S hdr rows ns hhdr hrows hmap
  have h1 : ingestLines t (st, S) (hdr :: rows)
      = ingestLines t (ingestLine t (st, S) hdr) rows := rfl
  have h2 : (ingestLine t (st, S) hdr).2.fighters = ∅ := by
    simp [ingestLine, parse_game_line, parseStripped, hhdr, applyOpAt,
      clear_fighter_locations]
  rw [h1, fighters_ingestRows t rows ns _ hrows hmap, h2]
  simp

/-- A store whose fighter set is stale before the scan of claim C8's
witness. -/
def preStore : Store := { emptyStore with fighters := {7, 9} }

/-- A fighter-scan row naming sector 100. -/
def fighterRow : List Char := "   100  2  Personal  Defensive".toList

/-- C8, witness: a header plus one row over a stale fighter set {7, 9}
leaves exactly {100}. -/
theorem claim_C8_witness :
    (ingestLines 0 ((⟨none⟩ : PState), preStore) [hdrLine, fighterRow]).2.fighters
      = ([100] : List Nat).toFinset :=
  claim_C8_theorem 0 ⟨none⟩ preStore hdrLine [fighterRow] [100] (by decide)
    (by decide) (by decide)

/-! ## Claim C9 -/

/-- The report convention: a blank buy/sell column means the port sells,
a dash means it buys. -/
def bsLetter (c : Char) : Char := if c = ' ' then 'S' else 'B'

/-- Primary-key lookup after a `REPLACE INTO` finds the new row. -/
theorem lookup_upsert {α : Type} (n : Nat) (r : α) (l : List (Nat × α)) :
    lookupKey (upsertKey n r l) n = some r := by
  simp [lookupKey, upsertKey, List.find?]

/-- C9: for every port-listing observation, the stored class is built
position-wise in the order Ore, Organics, Equipment by mapping blank to S
and dash to B; the stored row is determined entirely by the observation and
the ingestion time (the prior store contents, including any previous record
of the same sector, never leak in — replace, not merge), and `last_seen`
equals the application time of the most recent ingestion. -/
theorem claim_C9_theorem : ∀ (t : Nat) (S : Store)
    (sec oa opc ga gpc ea epc : List Char) (c1 c2 c3 : Char)
    (n oaV opV gaV gpV eaV epV : Nat),
    pyIntStrip sec = some n →
    pyIntStrip oa = some oaV → pyIntStrip opc = some opV →
    pyIntStrip ga = some gaV → pyIntStrip gpc = some gpV →
    pyIntStrip ea = some eaV → pyIntStrip epc = some epV →
    (c1 = ' ' ∨ c1 = '-') → (c2 = ' ' ∨ c2 = '-') → (c3 = ' ' ∨ c3 = '-') →
    lookupKey
        (save_port_list t sec [c1] oa opc [c2] ga gpc [c3] ea epc S).ports n
      = some { klass := [bsLetter c1, bsLetter c2, bsLetter c3],
               ore_amt := oaV, ore_pct := opV, org_amt := gaV, org_pct := gpV,
               equ_amt := eaV, equ_pct := epV, last_seen := t } := by
  intro t S sec oa opc ga gpc ea epc c1 c2 c3 n oaV opV gaV gpV eaV epV
    hsec hoa hop hga hgp hea hep h1 h2 h3
  unfold save_port_list buildPortRow
  rw [hsec, hoa, hop, hga, hgp, hea, hep]
  simp only [lookup_upsert, Option.some.injEq]
  have hk : pyReplaceChar '-' 'B' (pyReplaceChar ' ' 'S' ([c1] ++ [c2] ++ [c3]))
      = [bsLetter c1, bsLetter c2, bsLetter c3] := by
    rcases h1 with rfl | rfl <;> rcases h2 with rfl | rfl <;>
      rcases h3 with rfl | rfl <;> rfl
  rw [hk]

/-- C9, witness: the concrete port line's groups (class columns dash,
blank, dash would give BSB; here blank, dash, blank gives SBS) stored at
time 5 over the empty store. -/
theorem claim_C9_witness :
    lookupKey (save_port_list 5 ("   1".toList) [' '] (" 100".toList)
        (" 50".toList) ['-'] (" 200".toList) (" 60".toList) [' ']
        (" 300".toList) (" 70".toList) emptyStore).ports 1
      = some { klass := [bsLetter ' ', bsLetter '-', bsLetter ' '],
               ore_amt := 100, ore_pct := 50, org_amt := 200, org_pct := 60,
               equ_amt := 300, equ_pct := 70, last_seen := 5 } :=
  claim_C9_theorem 5 emptyStore _ _ _ _ _ _ _ ' ' '-' ' ' 1 100 50 200 60 300 70
    (by decide) (by decide) (by decide) (by decide) (by decide) (by decide)
    (by decide) (Or.inl rfl) (Or.inr rfl) (Or.inl rfl)

/-! ## Claim C10 -/

/-- One scheduler step preserves the queue invariant: the applied log, the
queue and the not-yet-enqueued operations always concatenate to the
original classification order, and the store is the fold of the applied
log. -/
theorem qstep_inv (t : Nat) (L : List DbOp) (S : Store) (sys : QSys) (b : Bool)
    (h1 : sys.applied ++ sys.queue ++ sys.pending = L)
    (h2 : sys.store = sys.applied.foldl (fun s o => applyOpAt t o s) S) :
    ((qstep t sys b).applied ++ (qstep t sys b).queue
        ++ (qstep t sys b).pending = L ∧
     (qstep t sys b).store
        = (qstep t sys b).applied.foldl (fun s o => applyOpAt t o s) S) := by
  cases b with
  | true =>
    unfold qstep
    cases hp : sys.pending with
    | nil => exact ⟨by simpa [hp] using h1, by simpa using h2⟩
    | cons op rest =>
      constructor
      · simp only [if_true]
        rw [← h1, hp]
        simp [List.append_assoc]
      · simpa using h2
  | false =>
    unfold qstep
    cases hq : sys.queue with
    | nil => exact ⟨by simpa [hq] using h1, by simpa using h2⟩
    | cons op rest =>
      constructor
      · simp only [Bool.false_eq_true, if_false]
        rw [← h1, hq]
        simp [List.append_assoc]
      · simp only [Bool.false_eq_true, if_false]
        rw [h2, List.foldl_append]
        simp

/-- Any schedule preserves the queue invariant. -/
theorem qrun_inv (t : Nat) (L : List DbOp) (S : Store) :
    ∀ (sched : List Bool) (sys : QSys),
    sys.applied ++ sys.queue ++ sys.pending = L →
    sys.store = sys.applied.foldl (fun s o => applyOpAt t o s) S →
    ((qrun t sched sys).applied ++ (qrun t sched sys).queue
        ++ (qrun t sched sys).pending = L ∧
     (qrun t sched sys).store
        = (qrun t sched sys).applied.foldl (fun s o => applyOpAt t o s) S) := by
  intro sched
  induction sched with
  | nil => intro sys h1 h2; exact ⟨h1, h2⟩
  | cons b sched ih =>
    intro sys h1 h2
    have hq : qrun t (b :: sched) sys = qrun t sched (qstep t sys b) := rfl
    rw [hq]
    have hstep := qstep_inv t L S sys b h1 h2
    exact ih _ hstep.1 hstep.2

/-- C10: for every classification order `L` and every interleaving of the
producer and the single consumer, the applied log is a prefix of `L` — so
every operation enqueued earlier is applied before any operation enqueued
later (in particular a scan header's clear before the fighter rows that
follow it) — and the store is the in-order fold of exactly the applied
prefix. -/
theorem claim_C10_theorem : ∀ (t : Nat) (L : List DbOp) (S : Store)
    (sched : List Bool),
    ((qrun t sched ⟨L, [], [], S⟩).applied ++ (qrun t sched ⟨L, [], [], S⟩).queue
        ++ (qrun t sched ⟨L, [], [], S⟩).pending = L) ∧
    (∃ rest, (qrun t sched ⟨L, [], [], S⟩).applied ++ rest = L) ∧
    (qrun t sched ⟨L, [], [], S⟩).store
      = (qrun t sched ⟨L, [], [], S⟩).applied.foldl
          (fun s o => applyOpAt t o s) S := by
  intro t L S sched
  have main := qrun_inv t L S sched ⟨L, [], [], S⟩ (by simp) rfl
  refine ⟨main.1, ⟨(qrun t sched ⟨L, [], [], S⟩).queue
      ++ (qrun t sched ⟨L, [], [], S⟩).pending, ?_⟩, main.2⟩
  rw [← List.append_assoc]
  exact main.1

end TW
